import Mathlib

/-!
Verification development for the structured-generation client contract of the
`ai` repository. The repository ships documentation, unit tests and example
scripts; the client implementation itself (generateObject / streamObject /
doEmbed) is not part of the source tree, so the operations below are modelled
from the specification's contract and checked against the documented and
tested behaviour.
-/

namespace AiSdk

/-- Output mode of a structured-generation request (spec section 3):
`object`, `array`, `enum` or `no-schema`. -/
inductive OutputMode where
  | object
  | array
  | enum
  | noSchema
deriving DecidableEq, Repr

/-- Finish reasons reported by the provider (spec section 3). -/
inductive FinishReason where
  | stop
  | length
  | contentFilter
  | toolCalls
  | error
  | other
  | unknown
deriving DecidableEq, Repr

/-- Modelled from the spec: the error taxonomy of section 7 for the
structured-generation client, whose implementation is not in the source tree
(only documentation and examples are). `typeValidation` carries the raw text
and the structural mismatch description; `missingToolResult` names the
offending tool-call id. -/
inductive GenError where
  | configuration (msg : String)
  | requestFailed (lastErr : String)
  | typeValidation (raw : String) (mismatch : String)
  | missingToolResult (id : String)
  | aborted
deriving DecidableEq, Repr

/-- Modelled from the spec: a Request (spec section 3) bundles a model
identifier, optional system instruction, a prompt, an output mode, an
optional schema capability (a validator from raw text to a typed value or a
structural mismatch description) and generation parameters, with a default
retry budget of 2.  The client implementation is absent from the source
tree. -/
structure Request (V : Type) where
  model : String
  system : Option String := none
  prompt : String
  output : OutputMode := .object
  schema : Option (String → Except String V) := none
  maxOutputTokens : Option Nat := none
  seed : Option Nat := none
  maxRetries : Nat := 2

/-- Whether schema presence matches the output mode: a schema is required for
`object`/`array` and forbidden for `enum`/`no-schema` (spec section 3). -/
def schemaModeOk {V : Type} (req : Request V) : Bool :=
  match req.output, req.schema with
  | .object, some _ => true
  | .array, some _ => true
  | .enum, none => true
  | .noSchema, none => true
  | _, _ => false

/-- One reply of the transport collaborator: a successful raw-text response
with a provider-reported finish reason, a transient (retryable) failure, or a
fatal (non-retryable) failure (spec sections 4.1, 6, 7). -/
inductive TransportReply where
  | success (raw : String) (finishReason : FinishReason)
  | transient (err : String)
  | fatal (err : String)

/-- A one-shot Result: the validated output value together with the
provider-reported finish reason (spec section 3). -/
structure GenResult (V : Type) where
  object : V
  finishReason : FinishReason
deriving DecidableEq, Repr

/-- The fixed message of the configuration error raised when the schema does
not match the output mode. -/
def cfgMsg : String := "schema must match output mode"

/-- Modelled from the spec: the retry loop of `generate` (spec section 4.1).
The transport collaborator is a function from the call index to a reply; the
loop returns the outcome together with the total number of transport
invocations.  A successful reply is validated by the schema capability: a
mismatch becomes a `typeValidation` error carrying the raw text, with no
retry.  A fatal transport failure fails immediately.  A transient failure is
retried while the retry budget lasts; once exhausted the loop fails with
`requestFailed` wrapping the last transport error. -/
def genLoop {V : Type} (transport : Nat → TransportReply)
    (validate : String → Except String V) :
    Nat → Nat → Except GenError (GenResult V) × Nat
  | idx, retriesLeft =>
    match transport idx with
    | .success raw fr =>
      match validate raw with
      | .ok v => (.ok ⟨v, fr⟩, idx + 1)
      | .error d => (.error (.typeValidation raw d), idx + 1)
    | .fatal e => (.error (.requestFailed e), idx + 1)
    | .transient e =>
      match retriesLeft with
      | 0 => (.error (.requestFailed e), idx + 1)
      | r + 1 => genLoop transport validate (idx + 1) r

/-- Modelled from the spec: `generate(request)` (spec section 4.1), whose
implementation is absent from the source tree.  The mode/schema invariant is
checked before any transport call: on violation the call fails with a
configuration error and the transport records zero invocations.  Otherwise
the retry loop runs with the request's schema capability (or the raw
no-schema parse collaborator when no schema is present).  Returns the outcome
and the number of transport invocations. -/
def generate {V : Type} (req : Request V)
    (noSchemaParse : String → Except String V)
    (transport : Nat → TransportReply) :
    Except GenError (GenResult V) × Nat :=
  if schemaModeOk req then
    genLoop transport (req.schema.getD noSchemaParse) 0 req.maxRetries
  else
    (.error (.configuration cfgMsg), 0)

/-- C1: a request with output mode `object` or `array` but no schema fails
with a configuration error and the transport records zero invocations. -/
theorem missing_schema_is_config_error_before_network {V : Type}
    (req : Request V) (noSchemaParse : String → Except String V)
    (transport : Nat → TransportReply)
    (hmode : req.output = .object ∨ req.output = .array)
    (hschema : req.schema = none) :
    generate req noSchemaParse transport = (.error (.configuration cfgMsg), 0) := by
  have hok : schemaModeOk req = false := by
    rcases hmode with h | h <;> simp [schemaModeOk, h, hschema]
  simp [generate, hok]

/-- C1 witness: a concrete object-mode request without a schema. -/
theorem missing_schema_is_config_error_before_network_witness :
    generate { model := "m", prompt := "p", output := .object,
               schema := none : Request Nat }
      (fun _ => .error "nsp") (fun _ => .transient "boom")
      = (.error (.configuration cfgMsg), 0) :=
  missing_schema_is_config_error_before_network _ _ _ (Or.inl rfl) rfl

/-- C2: when the first transport reply succeeds but the schema capability
rejects the raw text, `generate` fails with a `typeValidation` error carrying
the raw text and the mismatch description, the transport is invoked exactly
once (observed retry count 0), and no value is returned. -/
theorem validation_failure_no_retry {V : Type} (req : Request V)
    (noSchemaParse sv : String → Except String V)
    (transport : Nat → TransportReply)
    (raw d : String) (fr : FinishReason)
    (hok : schemaModeOk req = true)
    (hsch : req.schema = some sv)
    (ht : transport 0 = .success raw fr)
    (hv : sv raw = .error d) :
    generate req noSchemaParse transport
      = (.error (.typeValidation raw d), 1) := by
  simp [generate, hok, hsch, genLoop, ht, hv]

/-- C2 witness: a transport that answers at once with text the schema
rejects. -/
theorem validation_failure_no_retry_witness :
    schemaModeOk { model := "m", prompt := "p", output := .object,
                   schema := some (fun _ => .error "bad") : Request Nat } = true ∧
    generate { model := "m", prompt := "p", output := .object,
               schema := some (fun _ => .error "bad") : Request Nat }
      (fun _ => .error "nsp") (fun _ => .success "raw" .stop)
      = (.error (.typeValidation "raw" "bad"), 1) :=
  ⟨rfl, validation_failure_no_retry _ _ _ _ "raw" "bad" .stop rfl rfl rfl rfl⟩

/-- C3: with the default retry budget of 2, a transport that fails twice with
a transient error and then succeeds makes `generate` return success with the
transport invoked exactly 3 times; and a transport that fails transiently on
every call makes `generate` fail with `requestFailed` wrapping the last
transport error, again after exactly 3 invocations. -/
theorem default_retry_budget_two {V : Type} (req : Request V)
    (noSchemaParse sv : String → Except String V)
    (hok : schemaModeOk req = true)
    (hsch : req.schema = some sv)
    (hbudget : req.maxRetries = 2) :
    (∀ (transport : Nat → TransportReply) (e₀ e₁ raw : String)
       (fr : FinishReason) (v : V),
       transport 0 = .transient e₀ → transport 1 = .transient e₁ →
       transport 2 = .success raw fr → sv raw = .ok v →
       generate req noSchemaParse transport = (.ok ⟨v, fr⟩, 3)) ∧
    (∀ (transport : Nat → TransportReply) (e : Nat → String),
       (∀ n, transport n = .transient (e n)) →
       generate req noSchemaParse transport
         = (.error (.requestFailed (e 2)), 3)) := by
  constructor
  · intro transport e₀ e₁ raw fr v h0 h1 h2 hv
    simp [generate, hok, hsch, hbudget, genLoop, h0, h1, h2, hv]
  · intro transport e h
    simp [generate, hok, hsch, hbudget, genLoop, h 0, h 1, h 2]

/-- A concrete schema capability accepting only the raw text "ok". -/
def stubSchema : String → Except String Nat :=
  fun s => if s = "ok" then .ok 7 else .error "bad"

/-- A concrete object-mode request carrying `stubSchema` and the default
retry budget. -/
def stubRequest : Request Nat :=
  { model := "m", prompt := "p", output := .object, schema := some stubSchema }

/-- C3 witness: a stub failing twice then succeeding yields success after 3
calls; a persistently failing stub yields `requestFailed` after 3 calls. -/
theorem default_retry_budget_two_witness :
    generate stubRequest (fun _ => .error "nsp")
      (fun n => if n < 2 then .transient "t" else .success "ok" .stop)
      = (.ok ⟨7, .stop⟩, 3) ∧
    generate stubRequest (fun _ => .error "nsp") (fun _ => .transient "t")
      = (.error (.requestFailed "t"), 3) :=
  ⟨(default_retry_budget_two stubRequest (fun _ => .error "nsp") stubSchema
        rfl rfl rfl).1 _ "t" "t" "ok" .stop 7 rfl rfl rfl (by simp [stubSchema]),
   (default_retry_budget_two stubRequest (fun _ => .error "nsp") stubSchema
        rfl rfl rfl).2 _ (fun _ => "t") (fun _ => rfl)⟩

/-- The running accumulated raw text after each provider-native increment:
element `i` is the concatenation of the first `i + 1` increments (spec
section 4.1). -/
def accumFrom (acc : String) : List String → List String
  | [] => []
  | i :: is => (acc ++ i) :: accumFrom (acc ++ i) is

/-- Modelled from the spec: the fragment sequence of a streaming request
(spec sections 3 and 4.1), whose implementation is absent from the source
tree.  After each increment the accumulated raw text is re-parsed
best-effort; increments whose accumulated text yields no confident partial
value are omitted (coalescing), so each increment contributes at most one
partial fragment. -/
def fragmentsOf {P : Type} (partialParse : String → Option P)
    (incs : List String) : List P :=
  (accumFrom "" incs).filterMap partialParse

/-- Modelled from the spec: the settlement of the deferred final value (spec
section 4.1): on stream completion the fully accumulated raw text is
validated exactly once; a mismatch rejects with a `typeValidation` error
carrying the raw text and the mismatch description. -/
def finalOf {V : Type} (validate : String → Except String V)
    (incs : List String) : Except GenError V :=
  match validate (String.join incs) with
  | .ok v => .ok v
  | .error d => .error (.typeValidation (String.join incs) d)

/-- The arguments passed to the completion callback: the parsed object and no
error on success, an undefined object and the populated error on validation
failure (spec section 4.1). -/
def callbackArgsOf {V : Type} : Except GenError V → Option V × Option GenError
  | .ok v => (some v, none)
  | .error e => (none, some e)

/-- The observable outcome of running one streaming request: the fragment
sequence, the settled deferred final value, the list of completion-callback
invocations (their arguments), and the log entry recording a callback
exception that the producer caught. -/
structure StreamExec (P V : Type) where
  partialObjectStream : List P
  object : Except GenError V
  callbackCalls : List (Option V × Option GenError)
  callbackLog : Option String

/-- Modelled from the spec: `stream(request)` run against a stub stream of
increments (spec section 4.1), whose implementation is absent from the
source tree.  The optional completion callback registered at creation time
is invoked at most once, after settlement is determined; an exception it
throws is caught and logged, never propagated into the fragment sequence or
the deferred final value. -/
def streamExec {P V : Type} (partialParse : String → Option P)
    (validate : String → Except String V)
    (cb : Option (Option V → Option GenError → Except String Unit))
    (incs : List String) : StreamExec P V :=
  let fin := finalOf validate incs
  let args := callbackArgsOf fin
  { partialObjectStream := fragmentsOf partialParse incs
    object := fin
    callbackCalls := match cb with
      | none => []
      | some _ => [args]
    callbackLog := match cb with
      | none => none
      | some f =>
        match f args.1 args.2 with
        | .ok _ => none
        | .error m => some m }

/-- An event of the streaming timeline: a partial fragment delivered to the
consumer, or the settlement of the deferred final value. -/
inductive StreamEvent (P V : Type) where
  | fragment (p : P)
  | settle (o : Except GenError V)

/-- Modelled from the spec: the ordered event timeline of one streaming
request (spec section 4.1): every partial fragment is delivered, in order,
before the deferred final value settles. -/
def streamTrace {P V : Type} (partialParse : String → Option P)
    (validate : String → Except String V) (incs : List String) :
    List (StreamEvent P V) :=
  (fragmentsOf partialParse incs).map .fragment
    ++ [.settle (finalOf validate incs)]

/-- The accumulated-text list has one entry per increment. -/
theorem accumFrom_length (incs : List String) :
    ∀ acc, (accumFrom acc incs).length = incs.length := by
  induction incs with
  | nil => intro acc; rfl
  | cons i is ih => intro acc; simp [accumFrom, ih]

/-- C4: when full validation of the accumulated text succeeds, the deferred
final value settles with the parsed object and the registered completion
callback receives the parsed object and no error; when validation fails, the
deferred final value rejects with a `typeValidation` error and the callback
receives an undefined object together with the populated error. -/
theorem stream_settlement_and_callback {P V : Type}
    (partialParse : String → Option P) (validate : String → Except String V)
    (f : Option V → Option GenError → Except String Unit)
    (incs : List String) :
    (∀ v, validate (String.join incs) = .ok v →
       (streamExec partialParse validate (some f) incs).object = .ok v ∧
       (streamExec partialParse validate (some f) incs).callbackCalls
         = [(some v, none)]) ∧
    (∀ d, validate (String.join incs) = .error d →
       (streamExec partialParse validate (some f) incs).object
         = .error (.typeValidation (String.join incs) d) ∧
       (streamExec partialParse validate (some f) incs).callbackCalls
         = [(none, some (.typeValidation (String.join incs) d))]) := by
  constructor
  · intro v hv
    constructor <;> simp [streamExec, finalOf, hv, callbackArgsOf]
  · intro d hd
    constructor <;> simp [streamExec, finalOf, hd, callbackArgsOf]

/-- C4 witness: a two-increment stub whose join parses, and one whose join
does not. -/
theorem stream_settlement_and_callback_witness :
    (streamExec (fun _ => (none : Option Nat)) stubSchema
        (some (fun _ _ => .ok ())) ["o", "k"]).object = .ok 7 ∧
    (streamExec (fun _ => (none : Option Nat)) stubSchema
        (some (fun _ _ => .ok ())) ["o", "k"]).callbackCalls
      = [(some 7, none)] ∧
    (streamExec (fun _ => (none : Option Nat)) stubSchema
        (some (fun _ _ => .ok ())) ["n", "o"]).object
      = .error (.typeValidation "no" "bad") ∧
    (streamExec (fun _ => (none : Option Nat)) stubSchema
        (some (fun _ _ => .ok ())) ["n", "o"]).callbackCalls
      = [(none, some (.typeValidation "no" "bad"))] := by
  have hok :=
    (stream_settlement_and_callback (fun _ => (none : Option Nat)) stubSchema
      (fun _ _ => .ok ()) ["o", "k"]).1 7 (by simp [stubSchema, String.join])
  have hbad :=
    (stream_settlement_and_callback (fun _ => (none : Option Nat)) stubSchema
      (fun _ _ => .ok ()) ["n", "o"]).2 "bad" (by simp [stubSchema, String.join])
  have hjoin : String.join ["n", "o"] = "no" := by simp [String.join]
  rw [hjoin] at hbad
  exact ⟨hok.1, hok.2, hbad.1, hbad.2⟩

/-- C6: for a stub stream of N increments that reconstructs a valid object,
the fragment sequence has at most N partial fragments, the settlement of the
deferred final value (with the valid object) is the last event of the
timeline, and everything before it is exactly the fragment sequence — so a
consumer that drains the fragment sequence before awaiting the deferred
final value finds it settled. -/
theorem stream_fragments_precede_settlement {P V : Type}
    (partialParse : String → Option P) (validate : String → Except String V)
    (incs : List String) (v : V)
    (hv : validate (String.join incs) = .ok v) :
    (fragmentsOf partialParse incs).length ≤ incs.length ∧
    (streamTrace partialParse validate incs).getLast?
      = some (.settle (.ok v)) ∧
    (streamTrace partialParse validate incs).dropLast
      = (fragmentsOf partialParse incs).map .fragment := by
  refine ⟨?_, ?_, ?_⟩
  · calc (fragmentsOf partialParse incs).length
        ≤ (accumFrom "" incs).length :=
          List.length_filterMap_le partialParse (accumFrom "" incs)
      _ = incs.length := accumFrom_length incs ""
  · simp [streamTrace, finalOf, hv]
  · simp [streamTrace]

/-- C6 witness: three increments that reconstruct the text "oak", with a
partial parse confident only once the text is nonempty. -/
theorem stream_fragments_precede_settlement_witness :
    (fragmentsOf (fun s => if s = "o" then some 0 else none) ["o", "a", "k"]).length
      ≤ (["o", "a", "k"] : List String).length ∧
    (streamTrace (fun s => if s = "o" then some 0 else none)
        (fun s => if s = "oak" then .ok 7 else .error "bad") ["o", "a", "k"]).getLast?
      = some (.settle (.ok 7)) ∧
    (streamTrace (fun s => if s = "o" then some 0 else none)
        (fun s => if s = "oak" then .ok 7 else .error "bad") ["o", "a", "k"]).dropLast
      = (fragmentsOf (fun s => if s = "o" then some 0 else none)
          ["o", "a", "k"]).map .fragment :=
  stream_fragments_precede_settlement
    (fun s => if s = "o" then some 0 else none)
    (fun s => if s = "oak" then .ok 7 else .error "bad")
    ["o", "a", "k"] 7 (by simp [String.join])

/-- C7: the completion callback is invoked at most once, and a callback
exception is isolated: the fragment sequence, the deferred final value and
the invocation record are identical whatever the registered callback does
(only the producer's log differs). -/
theorem stream_callback_isolated {P V : Type}
    (partialParse : String → Option P) (validate : String → Except String V)
    (cb cb' : Option (Option V → Option GenError → Except String Unit))
    (incs : List String) :
    (streamExec partialParse validate cb incs).callbackCalls.length ≤ 1 ∧
    (streamExec partialParse validate cb incs).object
      = (streamExec partialParse validate cb' incs).object ∧
    (streamExec partialParse validate cb incs).partialObjectStream
      = (streamExec partialParse validate cb' incs).partialObjectStream := by
  refine ⟨?_, rfl, rfl⟩
  cases cb <;> simp [streamExec]

/-- A tool call issued by the model: an id, a tool name and arguments (spec
section 3). -/
structure ToolCall where
  id : String
  toolName : String
  args : String
deriving DecidableEq, Repr

/-- A tool result supplied for a tool call: a success payload or an error
marker (spec section 3). -/
inductive Resolution where
  | success (payload : String)
  | error (payload : String)
deriving DecidableEq, Repr

/-- Modelled from the spec: the tool round-trip tracker state (spec section
4.2), whose implementation is absent from the source tree — an associative
state table keyed by tool-call id, holding `none` while the call is issued
and unresolved and `some r` once resolved. -/
def Tracker : Type := List (String × Option Resolution)

/-- The tracker after one step issues the given tool calls: every call is
recorded unresolved. -/
def initTracker (calls : List ToolCall) : Tracker :=
  calls.map (fun c => (c.id, none))

/-- Modelled from the spec: one resolution event (spec section 4.2),
first-write-wins — resolving an already-resolved id keeps the first
result. -/
def resolve (t : Tracker) (id : String) (r : Resolution) : Tracker :=
  t.map (fun kv => if kv.1 = id then (kv.1, some (kv.2.getD r)) else kv)

/-- A sequence of resolution events applied in order. -/
def applyResolutions (t : Tracker) : List (String × Resolution) → Tracker
  | [] => t
  | (id, r) :: rest => applyResolutions (resolve t id r) rest

/-- The ids of the tool calls that remain unresolved, in issue order. -/
def unresolvedIds (t : Tracker) : List String :=
  t.filterMap (fun kv => if kv.2.isNone then some kv.1 else none)

/-- Modelled from the spec: submitting the next generation step (spec
section 4.2) — it fails with a `missingToolResult` error naming an
unresolved tool-call id while any issued call remains unresolved, and
proceeds once every call is resolved. -/
def submitStep (t : Tracker) : Except GenError Unit :=
  match unresolvedIds t with
  | [] => .ok ()
  | id :: _ => .error (.missingToolResult id)

/-- The effect of a sequence of resolution events on a single tracker
entry. -/
def resolveEntry (kv : String × Option Resolution) :
    List (String × Resolution) → String × Option Resolution
  | [] => kv
  | (id, r) :: rest =>
    resolveEntry (if kv.1 = id then (kv.1, some (kv.2.getD r)) else kv) rest

/-- Resolution events act on every tracker entry independently. -/
theorem applyResolutions_eq_map (rs : List (String × Resolution)) :
    ∀ t : Tracker, applyResolutions t rs = t.map (fun kv => resolveEntry kv rs) := by
  induction rs with
  | nil => intro t; simp [applyResolutions, resolveEntry, Tracker]
  | cons p rest ih =>
    intro t
    obtain ⟨id, r⟩ := p
    rw [applyResolutions, ih, resolve, List.map_map]
    rfl

/-- Resolution events never change an entry's key. -/
theorem resolveEntry_fst (rs : List (String × Resolution)) :
    ∀ kv, (resolveEntry kv rs).1 = kv.1 := by
  induction rs with
  | nil => intro kv; rfl
  | cons p rest ih =>
    intro kv
    obtain ⟨id, r⟩ := p
    rw [resolveEntry, ih]
    by_cases h : kv.1 = id <;> simp [h]

/-- An initially unresolved entry is resolved after a sequence of events
exactly when some event targets its key. -/
theorem resolveEntry_isSome (rs : List (String × Resolution)) :
    ∀ k, (resolveEntry (k, none) rs).2.isSome ↔ k ∈ rs.map Prod.fst := by
  induction rs with
  | nil => intro k; simp [resolveEntry]
  | cons p rest ih =>
    intro k
    obtain ⟨id, r⟩ := p
    have hsome : ∀ (rs' : List (String × Resolution)) k' v,
        (resolveEntry (k', some v) rs').2.isSome = true := by
      intro rs'
      induction rs' with
      | nil => intro k' v; rfl
      | cons q rest' ih' =>
        intro k' v
        obtain ⟨id', r'⟩ := q
        rw [resolveEntry]
        by_cases h' : k' = id' <;> simp [h'] <;> exact ih' _ _
    by_cases h : k = id
    · simp [resolveEntry, h, hsome]
    · simp [resolveEntry, h, ih k]

/-- After issuing `calls` and applying the resolution events `rs`, the
unresolved ids are exactly the ids of the calls no event targeted. -/
theorem unresolvedIds_characterization (calls : List ToolCall)
    (rs : List (String × Resolution)) :
    unresolvedIds (applyResolutions (initTracker calls) rs)
      = calls.filterMap
          (fun c => if c.id ∈ rs.map Prod.fst then none else some c.id) := by
  rw [applyResolutions_eq_map, unresolvedIds, initTracker, List.map_map,
    List.filterMap_map]
  apply List.filterMap_congr
  intro c _
  by_cases h : c.id ∈ rs.map Prod.fst
  · have hs : (resolveEntry (c.id, none) rs).2.isSome = true :=
      (resolveEntry_isSome rs c.id).mpr h
    simp [Function.comp, hs, Option.isNone_iff_eq_none, h,
      ← Option.not_isSome_iff_eq_none]
  · have hs : (resolveEntry (c.id, none) rs).2.isSome = false := by
      rw [Bool.eq_false_iff]
      intro hc
      exact h ((resolveEntry_isSome rs c.id).mp hc)
    simp [Function.comp, Option.isNone_iff_eq_none,
      ← Option.not_isSome_iff_eq_none, hs, h, resolveEntry_fst]

/-- C5: after a step issues `calls` and the resolution events `rs` are
applied, (1) if every issued call was resolved, submitting the next step
proceeds; (2) if submission fails with a `missingToolResult` error, the id
it names is the id of an issued call that no resolution targeted; (3) if
some issued call was never resolved, submission does not proceed. -/
theorem submit_requires_all_tool_results (calls : List ToolCall)
    (rs : List (String × Resolution)) :
    ((∀ c ∈ calls, c.id ∈ rs.map Prod.fst) →
       submitStep (applyResolutions (initTracker calls) rs) = .ok ()) ∧
    (∀ u, submitStep (applyResolutions (initTracker calls) rs)
        = .error (.missingToolResult u) →
       u ∈ calls.map ToolCall.id ∧ u ∉ rs.map Prod.fst) ∧
    ((∃ c ∈ calls, c.id ∉ rs.map Prod.fst) →
       submitStep (applyResolutions (initTracker calls) rs) ≠ .ok ()) := by
  have hchar := unresolvedIds_characterization calls rs
  refine ⟨?_, ?_, ?_⟩
  · intro hall
    have hnil : unresolvedIds (applyResolutions (initTracker calls) rs) = [] := by
      rw [hchar, List.filterMap_eq_nil_iff]
      intro c hc
      simp [hall c hc]
    simp [submitStep, hnil]
  · intro u hu
    have hmem : u ∈ unresolvedIds (applyResolutions (initTracker calls) rs) := by
      unfold submitStep at hu
      rcases hU : unresolvedIds (applyResolutions (initTracker calls) rs) with
        _ | ⟨id, rest⟩
      · rw [hU] at hu; exact absurd hu (by simp)
      · rw [hU] at hu
        simp only [Except.error.injEq, GenError.missingToolResult.injEq] at hu
        subst hu
        exact List.mem_cons_self _ _
    rw [hchar] at hmem
    obtain ⟨c, hc, heq⟩ := List.mem_filterMap.mp hmem
    by_cases h : c.id ∈ rs.map Prod.fst
    · simp [h] at heq
    · simp [h] at heq
      subst heq
      exact ⟨List.mem_map.mpr ⟨c, hc, rfl⟩, h⟩
  · rintro ⟨c, hc, hcu⟩ hok
    have hnil : unresolvedIds (applyResolutions (initTracker calls) rs) = [] := by
      unfold submitStep at hok
      rcases hU : unresolvedIds (applyResolutions (initTracker calls) rs) with
        _ | ⟨id, rest⟩
      · rfl
      · rw [hU] at hok; exact absurd hok (by simp)
    rw [hchar, List.filterMap_eq_nil_iff] at hnil
    have := hnil c hc
    simp [hcu] at this

/-- C5 witness: two issued tool calls; resolving only the first leaves
submission failing and naming the second call's id, resolving both lets
submission proceed. -/
theorem submit_requires_all_tool_results_witness :
    submitStep (applyResolutions
        (initTracker [⟨"a", "w", "x"⟩, ⟨"b", "w", "y"⟩])
        [("a", .success "r")]) ≠ .ok () ∧
    submitStep (applyResolutions
        (initTracker [⟨"a", "w", "x"⟩, ⟨"b", "w", "y"⟩])
        [("a", .success "r")]) = .error (.missingToolResult "b") ∧
    submitStep (applyResolutions
        (initTracker [⟨"a", "w", "x"⟩, ⟨"b", "w", "y"⟩])
        [("a", .success "r"), ("b", .error "e")]) = .ok () :=
  ⟨(submit_requires_all_tool_results [⟨"a", "w", "x"⟩, ⟨"b", "w", "y"⟩]
        [("a", .success "r")]).2.2 ⟨⟨"b", "w", "y"⟩, by decide⟩,
   by rfl,
   (submit_requires_all_tool_results [⟨"a", "w", "x"⟩, ⟨"b", "w", "y"⟩]
        [("a", .success "r"), ("b", .error "e")]).1 (by decide)⟩

/-- A JSON value: the shape of generated structured output. -/
inductive Json where
  | null
  | bool (b : Bool)
  | num (n : Int)
  | str (s : String)
  | arr (xs : List Json)
  | obj (fields : List (String × Json))

/-- Escape one character for a JSON string literal. -/
def escChar : Char → String
  | '"' => "\\\""
  | '\\' => "\\\\"
  | c => String.singleton c

/-- A JSON string literal: quoted, with quote and backslash escaped. -/
def jstr (s : String) : String :=
  "\"" ++ String.join (s.toList.map escChar) ++ "\""

mutual

/-- Compact JSON serialization of a value. -/
def Json.render : Json → String
  | .null => "null"
  | .bool b => cond b "true" "false"
  | .num n => toString n
  | .str s => jstr s
  | .arr xs => "[" ++ Json.renderArr xs ++ "]"
  | .obj fs => "\x7b" ++ Json.renderObj fs ++ "\x7d"

/-- Comma-separated serialization of array elements. -/
def Json.renderArr : List Json → String
  | [] => ""
  | [x] => Json.render x
  | x :: y :: xs => Json.render x ++ "," ++ Json.renderArr (y :: xs)

/-- Comma-separated serialization of object fields. -/
def Json.renderObj : List (String × Json) → String
  | [] => ""
  | [(k, v)] => jstr k ++ ":" ++ Json.render v
  | (k, v) :: f :: fs =>
    jstr k ++ ":" ++ Json.render v ++ "," ++ Json.renderObj (f :: fs)

end

/-- An HTTP response rendered from a Result: status code, content type and
body (spec section 6). -/
structure HttpResponse where
  status : Nat
  contentType : String
  body : String
deriving DecidableEq, Repr

/-- Modelled from the spec: `toJsonResponse` on a successful one-shot Result
(spec section 6 and the `generateObject` reference page), whose
implementation is absent from the source tree — a response with status 200,
content type `application/json; charset=utf-8` and the JSON-serialized
generated value as body. -/
def toJsonResponse (r : GenResult Json) : HttpResponse :=
  { status := 200
    contentType := "application/json; charset=utf-8"
    body := Json.render r.object }

/-- C8: every successful one-shot Result produced by `generate` renders via
`toJsonResponse` to an HTTP response with status 200, content type
`application/json; charset=utf-8`, and body equal to the JSON serialization
of the generated value. -/
theorem to_json_response_of_success (req : Request Json)
    (noSchemaParse : String → Except String Json)
    (transport : Nat → TransportReply) (res : GenResult Json) (n : Nat)
    (_h : generate req noSchemaParse transport = (.ok res, n)) :
    (toJsonResponse res).status = 200 ∧
    (toJsonResponse res).contentType = "application/json; charset=utf-8" ∧
    (toJsonResponse res).body = Json.render res.object :=
  ⟨rfl, rfl, rfl⟩

/-- A concrete generated JSON value used by the rendering witness. -/
def sampleJson : Json := Json.obj [("a", Json.arr [Json.num 1, Json.str "x"])]

/-- A concrete object-mode request whose schema capability accepts any raw
text as `sampleJson`. -/
def sampleRequest : Request Json :=
  { model := "m", prompt := "p", output := .object,
    schema := some (fun _ => .ok sampleJson) }

/-- C8 witness: a concrete successful generation whose value serializes to
the literal body text. -/
theorem to_json_response_of_success_witness :
    generate sampleRequest (fun _ => .error "nsp")
      (fun _ => .success "raw" .stop) = (.ok ⟨sampleJson, .stop⟩, 1) ∧
    (toJsonResponse ⟨sampleJson, .stop⟩).status = 200 ∧
    (toJsonResponse ⟨sampleJson, .stop⟩).contentType
      = "application/json; charset=utf-8" ∧
    (toJsonResponse ⟨sampleJson, .stop⟩).body = "\x7b\"a\":[1,\"x\"]\x7d" := by
  have h : generate sampleRequest (fun _ => .error "nsp")
      (fun _ => .success "raw" .stop) = (.ok ⟨sampleJson, .stop⟩, 1) := rfl
  have hb := to_json_response_of_success sampleRequest (fun _ => .error "nsp")
    (fun _ => .success "raw" .stop) ⟨sampleJson, .stop⟩ 1 h
  exact ⟨h, hb.1, hb.2.1, by rfl⟩

/-- One entry of the provider's embedding response: an index and the
embedding vector, as in the `data` array built by the tests. -/
structure EmbedEntry (α : Type) where
  index : Nat
  embedding : List α
deriving DecidableEq, Repr

/-- Token usage reported by the embedding provider. -/
structure EmbedUsage where
  prompt_tokens : Nat
  total_tokens : Nat
deriving DecidableEq, Repr

/-- The provider's embedding response: a data array of indexed embeddings,
the model name, and usage, as prepared by the tests. -/
structure EmbedResponse (α : Type) where
  data : List (EmbedEntry α)
  model : String
  usage : EmbedUsage

/-- The request body sent to the embeddings endpoint: model identifier, the
input values, the encoding format, and the optional dimensions field. -/
structure EmbedRequestBody where
  model : String
  input : List String
  encoding_format : String
  dimensions : Option Nat
deriving DecidableEq, Repr

/-- Modelled from the spec: the request body constructed by the embedding
client, exercised by the tests in the source tree — the model identifier,
the input values in order, encoding format `float`, and the dimensions field
exactly when the caller supplied a dimensions provider option. -/
def embedRequestBody (modelId : String) (values : List String)
    (dimensions : Option Nat) : EmbedRequestBody :=
  { model := modelId
    input := values
    encoding_format := "float"
    dimensions := dimensions }

/-- What one embedding call produces: the extracted embeddings, the reported
usage token count, and the request body that was sent. -/
structure DoEmbedOutcome (α : Type) where
  embeddings : List (List α)
  usageTokens : Nat
  requestBody : EmbedRequestBody

/-- Modelled from the spec: `doEmbed` of the HTTP embedding client, whose
implementation is absent from the source tree (only its unit tests are) —
it sends one request body to the transport, extracts the embedding vector of
each entry of the response's data array in order, and reports the provider's
`total_tokens` as usage. -/
def doEmbed {α : Type} (modelId : String) (values : List String)
    (dimensions : Option Nat)
    (transport : EmbedRequestBody → EmbedResponse α) : DoEmbedOutcome α :=
  let body := embedRequestBody modelId values dimensions
  let resp := transport body
  { embeddings := resp.data.map EmbedEntry.embedding
    usageTokens := resp.usage.total_tokens
    requestBody := body }

/-- The data array as the tests build it: each embedding paired with its
position. -/
def indexedData {α : Type} : Nat → List (List α) → List (EmbedEntry α)
  | _, [] => []
  | i, e :: es => ⟨i, e⟩ :: indexedData (i + 1) es

/-- Extracting the embeddings from an indexed data array recovers the
original vectors in order. -/
theorem indexedData_embeddings {α : Type} (es : List (List α)) :
    ∀ i, (indexedData i es).map EmbedEntry.embedding = es := by
  induction es with
  | nil => intro i; rfl
  | cons e es ih => intro i; simp [indexedData, ih]

/-- C9: `doEmbed` returns the embedding vectors of the provider response's
data array, element for element in the same order, and reports the
provider's `total_tokens` as usage; in particular, against a response whose
data array indexes the vectors `embs`, it returns exactly `embs`. -/
theorem doEmbed_extracts_embeddings_and_usage {α : Type} (modelId : String)
    (values : List String) (dims : Option Nat)
    (transport : EmbedRequestBody → EmbedResponse α)
    (embs : List (List α)) (u : EmbedUsage) (respModel : String) :
    (doEmbed modelId values dims transport).embeddings
      = (transport (embedRequestBody modelId values dims)).data.map
          EmbedEntry.embedding ∧
    (doEmbed modelId values dims transport).usageTokens
      = (transport (embedRequestBody modelId values dims)).usage.total_tokens ∧
    (doEmbed modelId values dims
        (fun _ => ⟨indexedData 0 embs, respModel, u⟩)).embeddings = embs ∧
    (doEmbed modelId values dims
        (fun _ => ⟨indexedData 0 embs, respModel, u⟩)).usageTokens
      = u.total_tokens :=
  ⟨rfl, rfl, by simp [doEmbed, indexedData_embeddings], rfl⟩

/-- C10: the request body sent by `doEmbed` carries exactly the model
identifier, the input values in their given order, and encoding format
`float`; its dimensions field is the caller's dimensions option, hence
present if and only if one was supplied. -/
theorem doEmbed_request_body {α : Type} (modelId : String)
    (values : List String) (dims : Option Nat)
    (transport : EmbedRequestBody → EmbedResponse α) :
    (doEmbed modelId values dims transport).requestBody
      = ⟨modelId, values, "float", dims⟩ ∧
    ((doEmbed modelId values dims transport).requestBody.dimensions.isSome
      ↔ dims.isSome) :=
  ⟨rfl, Iff.rfl⟩

end AiSdk
